/-
Verification of the static-analysis auditor (scripts/audit-project.py).

The Python source is shallowly embedded: file contents are `String`s
(viewed as `List Char`), Python string primitives (`strip`, `find`,
`rfind`, slicing, `readlines`, `str.count`) are reimplemented with their
Python semantics, and the fixed regular expressions used by the scanners
are executed by a small fueled backtracking matcher with Python `re`
semantics (leftmost match, alternation priority, greedy / lazy stars).
Numeric results that Python computes with `/` are modelled over `Rat`;
`ZeroDivisionError` is modelled as `none`.
-/
import Mathlib

set_option maxRecDepth 4000

/-! ## Python string primitives -/

/-- Python `str.isspace` characters relevant to `str.strip()` (ASCII set). -/
def isPyWS (c : Char) : Bool :=
  c = ' ' || c = '\t' || c = '\n' || c = '\r' || c = '\x0b' || c = '\x0c'

/-- Python `str.strip()`: remove leading and trailing whitespace. -/
def pyStrip (s : List Char) : List Char :=
  ((s.dropWhile isPyWS).reverse.dropWhile isPyWS).reverse

/-- Test `leadEq p s` : the pattern `p` is an initial segment of `s`. -/
def leadEq : List Char → List Char → Bool
  | [], _ => true
  | _ :: _, [] => false
  | p :: ps, c :: cs => p = c && leadEq ps cs

/-- Python `str.startswith((m1, m2, ...))`. -/
def startsAny (s : List Char) (ms : List (List Char)) : Bool :=
  ms.any (fun m => leadEq m s)

/-- Helper for `countSub`: scan, with `skip` characters still to pass
over after a previous match. -/
def countSubGo (pat : List Char) : List Char → Nat → Nat
  | [], _ => 0
  | c :: rest, skip =>
    if skip > 0 then countSubGo pat rest (skip - 1)
    else if pat ≠ [] && leadEq pat (c :: rest)
    then 1 + countSubGo pat rest (pat.length - 1)
    else countSubGo pat rest 0

/-- Python `str.count(pat)` for a non-empty `pat`: non-overlapping
occurrences, scanning left to right. -/
def countSub (s pat : List Char) : Nat :=
  countSubGo pat s 0

/-- Helper for `pyFindFrom`. -/
def pyFindGo : List Char → Char → Nat → Int
  | [], _, _ => -1
  | c :: cs, t, i => if c = t then (i : Int) else pyFindGo cs t (i + 1)

/-- Python `str.find(ch, i)` : first index `≥ i` holding `ch`, else `-1`. -/
def pyFindFrom (s : List Char) (t : Char) (i : Nat) : Int :=
  pyFindGo (s.drop i) t i

/-- Helper for `pyRfindBefore`. -/
def pyRfindGo : List Char → Char → Nat → Int → Int
  | [], _, _, best => best
  | c :: cs, t, i, best => pyRfindGo cs t (i + 1) (if c = t then (i : Int) else best)

/-- Python `str.rfind(ch, 0, hi)` : last index `< hi` holding `ch`, else `-1`. -/
def pyRfindBefore (s : List Char) (t : Char) (hi : Nat) : Int :=
  pyRfindGo (s.take hi) t 0 (-1)

/-- Normalize a Python slice index against a length. -/
def normIdx (len : Nat) (i : Int) : Nat :=
  if i < 0 then (max 0 ((len : Int) + i)).toNat else min i.toNat len

/-- Python slicing `s[a:b]` with possibly negative bounds. -/
def pySliceInt (s : List Char) (a b : Int) : List Char :=
  let a' := normIdx s.length a
  let b' := normIdx s.length b
  (s.drop a').take (b' - a')

/-- The opening-brace character. -/
def lbrace : Char := Char.ofNat 123

/-- The closing-brace character. -/
def rbrace : Char := Char.ofNat 125

/-- Slice `s[a:b]` for already-normalized natural bounds. -/
def sliceNat (s : List Char) (a b : Nat) : List Char :=
  (s.drop a).take (b - a)

/-- Helper for `pyLines`. -/
def pyLinesGo : List Char → List Char → List (List Char)
  | [], acc => if acc.isEmpty then [] else [acc.reverse]
  | c :: rest, acc =>
    if c = '\n' then ('\n' :: acc).reverse :: pyLinesGo rest []
    else pyLinesGo rest (c :: acc)

/-- Python `f.readlines()`: split after each newline, keeping the ends;
no empty trailing entry. -/
def pyLines (s : List Char) : List (List Char) :=
  pyLinesGo s []

/-- Python `pathlib.Path(name).suffix`: the extension of the final
component, empty when the last dot is first or last in the name. -/
def pySuffix (name : String) : String :=
  let cs := name.data
  let i := pyRfindBefore cs '.' cs.length
  if 0 < i ∧ i < (cs.length : Int) - 1 then String.mk (cs.drop i.toNat) else ""

/-! ## A small backtracking regex engine (Python `re` semantics) -/

/-- Regex syntax: character classes, sequencing, prioritized alternation,
greedy and lazy Kleene star, capture groups and the `\b` word boundary. -/
inductive RE where
  | eps
  | cls (p : Char → Bool)
  | seq (a b : RE)
  | alt (a b : RE)
  | starG (a : RE)
  | starL (a : RE)
  | group (n : Nat) (a : RE)
  | wordB

/-- Matcher state: the previously consumed character (for `\b`), the
remaining input, the absolute position, and the captured groups
`(index, start, stop)`. -/
structure MSt where
  prev : Option Char
  rest : List Char
  pos : Nat
  grps : List (Nat × Nat × Nat)

/-- Python `\w` (ASCII). -/
def isWordChar (c : Char) : Bool :=
  ('a' ≤ c && c ≤ 'z') || ('A' ≤ c && c ≤ 'Z') || ('0' ≤ c && c ≤ '9') || c = '_'

/-- Whether an optional character is a word character. -/
def isWordOpt : Option Char → Bool
  | none => false
  | some c => isWordChar c

/-- The fueled CPS backtracking matcher.  Alternation tries the left
branch first, `starG` prefers one more iteration, `starL` prefers none:
exactly Python `re` backtracking priority.  An iteration of a star that
consumes nothing is cut off. -/
def reM : Nat → RE → MSt → (MSt → Option MSt) → Option MSt
  | 0, _, _, _ => none
  | fuel + 1, r, st, k =>
    match r with
    | .eps => k st
    | .cls p =>
      match st.rest with
      | [] => none
      | c :: cs => if p c then k ⟨some c, cs, st.pos + 1, st.grps⟩ else none
    | .seq a b => reM fuel a st (fun st' => reM fuel b st' k)
    | .alt a b => (reM fuel a st k).orElse (fun _ => reM fuel b st k)
    | .starG a =>
      (reM fuel a st (fun st' =>
        if st'.pos = st.pos then none else reM fuel (.starG a) st' k)).orElse
        (fun _ => k st)
    | .starL a =>
      (k st).orElse (fun _ =>
        reM fuel a st (fun st' =>
          if st'.pos = st.pos then none else reM fuel (.starL a) st' k))
    | .group n a =>
      reM fuel a st (fun st' => k { st' with grps := (n, st.pos, st'.pos) :: st'.grps })
    | .wordB => if isWordOpt st.prev != isWordOpt st.rest.head? then k st else none

/-- One reported match: start, stop and captured groups. -/
structure RMatch where
  ms : Nat
  me : Nat
  grps : List (Nat × Nat × Nat)
deriving DecidableEq

/-- Fuel generous enough for the fixed patterns of this program on the
remaining input. -/
def reFuel (n : Nat) : Nat := (n + 2) * 256 + 256

/-- Try an anchored match at the state's position. -/
def tryAt (r : RE) (prev : Option Char) (rest : List Char) (pos : Nat) : Option MSt :=
  reM (reFuel rest.length) r ⟨prev, rest, pos, []⟩ some

/-- Helper for `findIter`: scan forward, reporting non-overlapping
matches, resuming after each match (Python `re.finditer`). -/
def findIterGo (r : RE) : Nat → Option Char → List Char → Nat → List RMatch
  | 0, _, _, _ => []
  | fuel + 1, prev, rest, pos =>
    match tryAt r prev rest pos with
    | some st' =>
      if st'.pos = pos then
        ⟨pos, pos, st'.grps⟩ ::
          (match rest with
           | [] => []
           | c :: cs => findIterGo r fuel (some c) cs (pos + 1))
      else ⟨pos, st'.pos, st'.grps⟩ :: findIterGo r fuel st'.prev st'.rest st'.pos
    | none =>
      match rest with
      | [] => []
      | c :: cs => findIterGo r fuel (some c) cs (pos + 1)

/-- Python `re.finditer` over a whole subject. -/
def findIter (r : RE) (s : List Char) : List RMatch :=
  findIterGo r (s.length + 1) none s 0

/-! ## Regex combinators and the program's fixed patterns -/

/-- Single exact character. -/
def reChar (c : Char) : RE := RE.cls (· = c)

/-- Single character, case-insensitive (`re.IGNORECASE`). -/
def reCharCI (c : Char) : RE := RE.cls (fun x => x.toLower = c.toLower)

/-- Right-nested sequence of a list of regexes. -/
def reSeq (l : List RE) : RE := l.foldr RE.seq RE.eps

/-- Literal string. -/
def reStr (s : String) : RE := reSeq (s.data.map reChar)

/-- Literal string, case-insensitive. -/
def reStrCI (s : String) : RE := reSeq (s.data.map reCharCI)

/-- Greedy `a+`. -/
def rePlus (a : RE) : RE := RE.seq a (RE.starG a)

/-- Optional `a?` (greedy: prefer presence). -/
def reOpt (a : RE) : RE := RE.alt a RE.eps

/-- Repetition `a{n}`. -/
def reRep (n : Nat) (a : RE) : RE := reSeq (List.replicate n a)

/-- Class `\s`. -/
def clsSpace : RE := RE.cls isPyWS

/-- Class `\w`. -/
def clsWord : RE := RE.cls isWordChar

/-- Class `[^c]`. -/
def clsNot (c : Char) : RE := RE.cls (· ≠ c)

/-- Class `[\s\S]` : any character. -/
def clsAny : RE := RE.cls (fun _ => true)

/-- Class `["\']`. -/
def clsQuote : RE := RE.cls (fun c => c = '"' || c.toNat = 39)

/-- Class `[^"\']`. -/
def clsNotQuote : RE := RE.cls (fun c => c ≠ '"' && c.toNat ≠ 39)

/-- Pattern `console\.(log|error|warn|info)` (IGNORECASE). -/
def patConsole : RE :=
  reSeq [reStrCI "console", reChar '.',
    RE.group 1 (RE.alt (reStrCI "log")
      (RE.alt (reStrCI "error") (RE.alt (reStrCI "warn") (reStrCI "info"))))]

/-- Pattern `\beval\s*\(` (IGNORECASE). -/
def patEval : RE :=
  reSeq [RE.wordB, reStrCI "eval", RE.starG clsSpace, reChar '(']

/-- Pattern `(password|secret|api[_-]?key)\s*=\s*["\'][^"\']{10,}["\']` (IGNORECASE). -/
def patSecret : RE :=
  reSeq [RE.group 1 (RE.alt (reStrCI "password")
      (RE.alt (reStrCI "secret")
        (reSeq [reStrCI "api", reOpt (RE.cls (fun c => c = '_' || c = '-')),
          reStrCI "key"]))),
    RE.starG clsSpace, reChar '=', RE.starG clsSpace,
    clsQuote, reRep 10 clsNotQuote, RE.starG clsNotQuote, clsQuote]

/-- Subpattern `(?::\s*[^{]+)?` : the optional return-type part. -/
def retAnn : RE :=
  reOpt (reSeq [reChar ':', RE.starG clsSpace, rePlus (clsNot lbrace)])

/-- Subpattern `(?:async\s+)?`. -/
def asyncOpt : RE := reOpt (RE.seq (reStr "async") (rePlus clsSpace))

/-- Branch `function\s+(\w+)` of the complexity function pattern. -/
def funcPatB1 : RE :=
  reSeq [reStr "function", rePlus clsSpace, RE.group 1 (rePlus clsWord)]

/-- Branch `(\w+)\s*\([^)]*\)\s*(?::\s*[^{]+)?\s*=>`. -/
def funcPatB2 : RE :=
  reSeq [RE.group 2 (rePlus clsWord), RE.starG clsSpace, reChar '(',
    RE.starG (clsNot ')'), reChar ')', RE.starG clsSpace, retAnn,
    RE.starG clsSpace, reStr "=>"]

/-- Branch `\b(\w+)\s*\([^)]*\)\s*(?::\s*[^{]+)?\s*\{`. -/
def funcPatB3 : RE :=
  reSeq [RE.wordB, RE.group 3 (rePlus clsWord), RE.starG clsSpace, reChar '(',
    RE.starG (clsNot ')'), reChar ')', RE.starG clsSpace, retAnn,
    RE.starG clsSpace, reChar lbrace]

/-- The whole function pattern of `ComplexityScanner`. -/
def funcPattern : RE :=
  RE.seq asyncOpt (RE.alt funcPatB1 (RE.alt funcPatB2 funcPatB3))

/-- Pattern `DOC_PATTERNS['function']` :
`(async\s+)?function\s+\w+|(?:export\s+)?(?:async\s+)?\w+\s*\([^)]*\)\s*(?::\s*[^{]+)?\s*\{`. -/
def docFuncPattern : RE :=
  RE.alt
    (reSeq [reOpt (RE.group 1 (RE.seq (reStr "async") (rePlus clsSpace))),
      reStr "function", rePlus clsSpace, rePlus clsWord])
    (reSeq [reOpt (RE.seq (reStr "export") (rePlus clsSpace)),
      reOpt (RE.seq (reStr "async") (rePlus clsSpace)),
      rePlus clsWord, RE.starG clsSpace, reChar '(', RE.starG (clsNot ')'),
      reChar ')', RE.starG clsSpace, retAnn, RE.starG clsSpace, reChar lbrace])

/-- Pattern `DOC_PATTERNS['jsdoc']` : `/\*\*[\s\S]*?\*/`. -/
def jsdocPattern : RE :=
  reSeq [reChar '/', reChar '*', reChar '*', RE.starL clsAny, reChar '*', reChar '/']

/-! ## Config -/

namespace Config

/-- Source `Config.EXCLUDE_DIRS`. -/
def EXCLUDE_DIRS : List String :=
  ["node_modules", "dist", "build", "coverage", ".git", "logs", "__pycache__",
   "venv", "scripts"]

/-- Source `Config.EXCLUDE_FILES`. -/
def EXCLUDE_FILES : List String :=
  ["package-lock.json", "yarn.lock", "pnpm-lock.yaml", "test-server.ts"]

/-- Source `Config.MAX_FILE_LINES`. -/
def MAX_FILE_LINES : Nat := 400

/-- Source `Config.MAX_FUNCTION_LINES`. -/
def MAX_FUNCTION_LINES : Nat := 50

/-- Source `Config.MAX_FUNCTION_PARAMS`. -/
def MAX_FUNCTION_PARAMS : Nat := 5

end Config

/-! ## Shared scan-input model

Downstream scanners iterate over the `FileStats` list and re-read each
file from disk.  A `ScanFile` bundles the fields they consume: the
relative path string, the extension, the code-line count and the read
result (`none` models a read that raises, caught by the scanner's
`except: pass`). -/

structure ScanFile where
  path : String
  extension : String
  code_lines : Int
  content : Option String
deriving DecidableEq

/-- The TS/JS eligibility test `f.extension in ['.ts', '.js']`. -/
def eligibleExt (e : String) : Bool := e = ".ts" || e = ".js"

/-- Contents of the eligible, successfully-read files, in order
(ineligible files are skipped by the `continue`, unreadable ones by
`except: pass`). -/
def eligibleContents (files : List ScanFile) : List (List Char) :=
  files.filterMap (fun f =>
    if eligibleExt f.extension then f.content.map String.data else none)

/-- Python `match.group(n)` as a span, `none` when the group did not participate. -/
def grpSpan (m : RMatch) (n : Nat) : Option (Nat × Nat) :=
  (m.grps.find? (fun g => g.1 = n)).map (fun g => g.2)

/-- Python `match.group(n)` as text. -/
def grpText (content : List Char) (m : RMatch) (n : Nat) : Option (List Char) :=
  (grpSpan m n).map (fun s => sliceNat content s.1 s.2)

/-! ## SecurityScanner -/

/-- One security issue record. -/
structure Finding where
  ftype : String
  file : String
  snippet : String
deriving DecidableEq

/-- Source `Config.SECURITY_PATTERNS`, in dict insertion order. -/
def SECURITY_PATTERNS : List (String × RE) :=
  [("console.log", patConsole), ("eval", patEval), ("hardcoded-secret", patSecret)]

namespace SecurityScanner

/-- The comment markers the security scanner discards matches on. -/
def skipMarkers : List (List Char) := [("//").data, ("#").data]

/-- Source `SecurityScanner.scan_file`: run every security pattern over the
content, discard a match when the line around its offset starts (after
trimming) with a comment marker, and emit a `Finding` with a snippet
capped at 40 characters. -/
def scan_file (path : String) (content : List Char) : List Finding :=
  SECURITY_PATTERNS.flatMap (fun np =>
    (findIter np.2 content).filterMap (fun m =>
      let line_start := pyRfindBefore content '\n' m.ms
      let stop := pyFindFrom content '\n' m.ms
      let line := pySliceInt content line_start stop
      if startsAny (pyStrip line) skipMarkers then none
      else some ⟨np.1, path, String.mk ((sliceNat content m.ms m.me).take 40)⟩))

/-- Source `SecurityScanner.scan`: apply `scan_file` to every eligible file. -/
def scan (files : List ScanFile) : List Finding :=
  files.flatMap (fun f =>
    if eligibleExt f.extension then
      match f.content with
      | some c => scan_file f.path c.data
      | none => []
    else [])

end SecurityScanner

/-! ## ComplexityScanner -/

/-- Helper walking characters for `_find_function_end`. -/
def ffeGo : List Char → Nat → Int → Bool → Option Nat
  | [], _, _, _ => none
  | c :: cs, i, depth, inf =>
    if c = lbrace then ffeGo cs (i + 1) (depth + 1) true
    else if c = rbrace then
      if inf ∧ depth - 1 = 0 then some (i + 1) else ffeGo cs (i + 1) (depth - 1) inf
    else ffeGo cs (i + 1) depth inf

/-- Source `ComplexityScanner._find_function_end`: brace-depth scan from
`start`, capped at 5000 characters; on exhaustion return the window
end. -/
def find_function_end (content : List Char) (start : Nat) : Nat :=
  match ffeGo ((content.drop start).take 5000) start 0 false with
  | some e => e
  | none => min (start + 5000) content.length

/-- The per-function record computed inside
`analyze_function_complexity`'s loop. -/
structure FuncRec where
  func : String
  params : Nat
  complexity : Nat
  flines : Nat
deriving DecidableEq

/-- The estimated cyclomatic complexity of a resolved span: `1` plus the
substring counts of the branch keywords (audit-project.py lines
275-283). -/
def complexityOfSpan (body : List Char) : Nat :=
  1 + countSub body ("if ").data + countSub body ("else ").data
    + countSub body ("case ").data + countSub body ("&&").data
    + countSub body ("||").data + countSub body ("for ").data
    + countSub body ("while ").data + countSub body ("catch ").data

/-- The record for one function-pattern match: inferred name, parameter
count (commas in `group(0)` plus one, when a parenthesis is present),
estimated complexity over the resolved span, and body newline count. -/
def mkRecord (content : List Char) (m : RMatch) : FuncRec :=
  let gname := ((grpText content m 1).orElse (fun _ => grpText content m 2)).orElse
    (fun _ => grpText content m 3)
  let param_section := sliceNat content m.ms m.me
  let param_count := if param_section.contains '(' then param_section.count ',' + 1 else 0
  let func_end := find_function_end content m.ms
  let func_body := sliceNat content m.ms func_end
  { func := String.mk (gname.getD ("anonymous").data)
    params := param_count
    complexity := complexityOfSpan func_body
    flines := countSub func_body ("\n").data }

/-- One entry of a complexity offender list. -/
structure FuncEntry where
  func : String
  value : Nat
deriving DecidableEq

/-- The three per-file offender lists returned by
`analyze_function_complexity` (each already truncated to 5). -/
structure AFCResult where
  complex_functions : List FuncEntry
  long_functions : List FuncEntry
  many_params : List FuncEntry
deriving DecidableEq

namespace ComplexityScanner

/-- Source `ComplexityScanner.analyze_function_complexity`. -/
def analyze_function_complexity (content : List Char) : AFCResult :=
  let recs := (findIter funcPattern content).map (mkRecord content)
  { complex_functions :=
      (recs.filterMap (fun r =>
        if r.complexity > 10 then some (⟨r.func, r.complexity⟩ : FuncEntry)
        else none)).take 5
    long_functions :=
      (recs.filterMap (fun r =>
        if r.flines > Config.MAX_FUNCTION_LINES then some (⟨r.func, r.flines⟩ : FuncEntry)
        else none)).take 5
    many_params :=
      (recs.filterMap (fun r =>
        if r.params > Config.MAX_FUNCTION_PARAMS then some (⟨r.func, r.params⟩ : FuncEntry)
        else none)).take 5 }

/-- Stable descending insertion: `x` goes after all entries with a value
`≥` its own, which is exactly Python's stable `sorted(..., reverse=True)`
order. -/
def insDesc (x : FuncEntry) : List FuncEntry → List FuncEntry
  | [] => [x]
  | y :: ys => if y.value ≥ x.value then y :: insDesc x ys else x :: y :: ys

/-- Stable sort, descending by value. -/
def sortDesc (l : List FuncEntry) : List FuncEntry :=
  l.foldl (fun acc x => insDesc x acc) []

/-- The aggregate returned by `ComplexityScanner.scan`. -/
structure CompResult where
  complex_functions : List FuncEntry
  long_functions : List FuncEntry
  many_params : List FuncEntry
  total_complex : Nat
  total_long : Nat
  total_params : Nat
deriving DecidableEq

/-- Source `ComplexityScanner.scan`: concatenate the per-file lists (in file
order), sort each descending by its metric, truncate to 10, and report
the lengths of the truncated lists as the totals. -/
def scan (files : List ScanFile) : CompResult :=
  let rs := (eligibleContents files).map analyze_function_complexity
  let all_complex := (sortDesc (rs.flatMap (·.complex_functions))).take 10
  let all_long := (sortDesc (rs.flatMap (·.long_functions))).take 10
  let all_params := (sortDesc (rs.flatMap (·.many_params))).take 10
  { complex_functions := all_complex
    long_functions := all_long
    many_params := all_params
    total_complex := all_complex.length
    total_long := all_long.length
    total_params := all_params.length }

end ComplexityScanner

/-! ## DocumentationScanner -/

/-- Python `round(x, 1)` modelled on `Rat`: scale by 10, round half to
even, scale back. -/
def pyRound1 (q : Rat) : Rat :=
  let r := q * 10
  let f : Int := ⌊r⌋
  let frac := r - (f : Rat)
  let n : Int :=
    if frac < 1 / 2 then f
    else if frac > 1 / 2 then f + 1
    else if f % 2 = 0 then f else f + 1
  (n : Rat) / 10

/-- The result of `DocumentationScanner.scan`. -/
structure DocResult where
  total_functions : Nat
  documented_functions : Nat
  coverage_percent : Rat
deriving DecidableEq

namespace DocumentationScanner

/-- Sum of function-pattern match counts over the eligible files. -/
def totalFunctions (files : List ScanFile) : Nat :=
  ((eligibleContents files).map (fun c => (findIter docFuncPattern c).length)).sum

/-- Sum of JSDoc-block match counts over the eligible files. -/
def documentedFunctions (files : List ScanFile) : Nat :=
  ((eligibleContents files).map (fun c => (findIter jsdocPattern c).length)).sum

/-- Source `DocumentationScanner.scan`: count function-like declarations and
JSDoc blocks independently; coverage is their ratio times 100, guarded
to `0` when no functions were counted. -/
def scan (files : List ScanFile) : DocResult :=
  let t := totalFunctions files
  let d := documentedFunctions files
  let coverage : Rat := if t > 0 then (d : Rat) / (t : Rat) * 100 else 0
  { total_functions := t
    documented_functions := d
    coverage_percent := pyRound1 coverage }

end DocumentationScanner

/-! ## CodeDuplicationScanner -/

/-- One occurrence of a normalized line: owning file path and 1-based
line number. -/
abbrev DupOcc := String × Nat

namespace CodeDuplicationScanner

/-- The structural-noise markers skipped by the duplication scanner. -/
def dupSkipMarkers : List (List Char) :=
  [("//").data, ("/*").data, ("*").data, ("\x7b").data, ("\x7d").data]

/-- The per-file loop body: normalized (stripped) substantial code lines
with their 1-based line numbers, in order.  `i` is the 0-based index of
the first line of `ls`. -/
def keptAux (path : String) : List (List Char) → Nat → List (List Char × DupOcc)
  | [], _ => []
  | l :: rest, i =>
    let normalized := pyStrip l
    if normalized.isEmpty || startsAny normalized dupSkipMarkers
        || normalized.length < 30
    then keptAux path rest (i + 1)
    else (normalized, (path, i + 1)) :: keptAux path rest (i + 1)

/-- All (normalized line, occurrence) pairs a file feeds into the hash
table; a failed read contributes nothing (`except: pass`). -/
def keptPairs (f : ScanFile) : List (List Char × DupOcc) :=
  match f.content with
  | none => []
  | some c => keptAux f.path (pyLines c.data) 0

/-- Python `defaultdict(list)` append: extend the entry for `k` (keys keep
insertion order).  The Python table is keyed by `hash(normalized)`; we
key by the normalized line itself, i.e. we model the hash as injective. -/
def tblAdd (t : List (List Char × List DupOcc)) (k : List Char) (v : DupOcc) :
    List (List Char × List DupOcc) :=
  match t with
  | [] => [(k, [v])]
  | (k', vs) :: rest =>
    if k' = k then (k', vs ++ [v]) :: rest else (k', vs) :: tblAdd rest k v

/-- Lookup of a key's occurrence list (empty when absent). -/
def tblGet (t : List (List Char × List DupOcc)) (k : List Char) : List DupOcc :=
  match t with
  | [] => []
  | (k', vs) :: rest => if k' = k then vs else tblGet rest k

/-- The corpus-wide `line_hashes` table built over the eligible files. -/
def table (files : List ScanFile) : List (List Char × List DupOcc) :=
  (files.filter (fun f => eligibleExt f.extension)).foldl
    (fun t f => (keptPairs f).foldl (fun t' p => tblAdd t' p.1 p.2) t) []

/-- A group with more than one occurrence contributes `occurrences - 1`
duplicates. -/
def contribution (occs : List DupOcc) : Nat :=
  if occs.length > 1 then occs.length - 1 else 0

/-- The result of `CodeDuplicationScanner.scan`:
`duplication_percent = none` models the uncaught `ZeroDivisionError`. -/
structure DupResult where
  duplicate_lines : Nat
  duplication_percent : Option Rat
deriving DecidableEq

/-- Source `CodeDuplicationScanner.scan`.  The percent guard in the source is
`if files else 0` — it tests the whole file list for emptiness, not the
eligible subset, so a non-empty list whose eligible code lines sum to
zero divides by zero (modelled as `none`). -/
def scan (files : List ScanFile) : DupResult :=
  let t := table files
  let duplicates := (t.map (fun e => contribution e.2)).sum
  let percent : Option Rat :=
    if files.isEmpty then some 0
    else
      let denom : Int :=
        (files.filterMap (fun f =>
          if eligibleExt f.extension then some f.code_lines else none)).sum
      if denom = 0 then none
      else some (pyRound1 ((duplicates : Rat) / (denom : Rat) * 100))
  { duplicate_lines := duplicates, duplication_percent := percent }

end CodeDuplicationScanner

/-! ## CodeScanner and the tree walker -/

/-- The per-file line-classification record (`FileStats`), with the
relative path kept as its components. -/
structure FileStats where
  path : List String
  lines : Nat
  extension : String
  code_lines : Int
  blank_lines : Nat
  comment_lines : Nat
deriving DecidableEq

namespace CodeScanner

/-- The classifier's comment markers. -/
def commentMarkers : List (List Char) := [("//").data, ("#").data, ("/*").data]

/-- Source `CodeScanner.should_skip`: any path component in `EXCLUDE_DIRS`, or
the final name in `EXCLUDE_FILES`. -/
def should_skip (parts : List String) : Bool :=
  parts.any (fun p => decide (p ∈ Config.EXCLUDE_DIRS))
    || decide ((parts.getLast?.getD "") ∈ Config.EXCLUDE_FILES)

/-- Source `CodeScanner.analyze_file`: classify each line as blank (empty after
strip), comment (trimmed form starts with a marker) or code
(`total - blank - comment`); a failed read (`except`) yields `none`. -/
def analyze_file (rel : List String) (content : Option String) : Option FileStats :=
  match content with
  | none => none
  | some c =>
    let ls := pyLines c.data
    let total := ls.length
    let blank := ls.countP (fun l => (pyStrip l).isEmpty)
    let comment := ls.countP (fun l => startsAny (pyStrip l) commentMarkers)
    let suffix := pySuffix (rel.getLast?.getD "")
    some
      { path := rel
        lines := total
        extension := if suffix = "" then ".txt" else suffix
        code_lines := (total : Int) - blank - comment
        blank_lines := blank
        comment_lines := comment }

end CodeScanner

/-- A file on disk: name and read result (`none` = unreadable). -/
structure FileEntry where
  fname : String
  fcontent : Option String
deriving DecidableEq

mutual
/-- A directory tree: subdirectories and files. -/
inductive FSTree where
  | node (dirs : List FSDir) (files : List FileEntry)
/-- A named subdirectory. -/
inductive FSDir where
  | dir (dname : String) (sub : FSTree)
end

mutual
/-- Python `os.walk` with the in-place `dirs[:]` pruning: the files of the
visited directory first, then each non-excluded subdirectory
recursively.  Paths are relative to the walked node. -/
def walkTree : FSTree → List (List String × Option String)
  | .node dirs files =>
    files.map (fun f => ([f.fname], f.fcontent)) ++ walkDirs dirs

/-- Walk a subdirectory list, skipping excluded directory names before
descending. -/
def walkDirs : List FSDir → List (List String × Option String)
  | [] => []
  | .dir n sub :: rest =>
    (if n ∈ Config.EXCLUDE_DIRS then []
     else (walkTree sub).map (fun p => (n :: p.1, p.2))) ++ walkDirs rest
end

namespace CodeScanner

/-- The `scan` loop body over the walked candidates: apply
`should_skip` to the full path (root parts ++ relative parts), analyze,
and keep records with a positive line count. -/
def processFiles (rootParts : List String) (cands : List (List String × Option String)) :
    List FileStats :=
  cands.filterMap (fun rc =>
    if should_skip (rootParts ++ rc.1) then none
    else
      match analyze_file rc.1 rc.2 with
      | some st => if st.lines > 0 then some st else none
      | none => none)

/-- Source `CodeScanner.scan` restricted to its `FileStats` output. -/
def scan (rootParts : List String) (t : FSTree) : List FileStats :=
  processFiles rootParts (walkTree t)

/-- One `stats_by_ext` accumulation step. -/
def extUpd (t : List (String × Nat × Int × Nat)) (st : FileStats) :
    List (String × Nat × Int × Nat) :=
  match t with
  | [] => [(st.extension, st.lines, st.code_lines, 1)]
  | (e, l, c, n) :: rest =>
    if e = st.extension then (e, l + st.lines, c + st.code_lines, n + 1) :: rest
    else (e, l, c, n) :: extUpd rest st

/-- The `stats_by_ext` aggregate (lines, code, files per extension),
a fold over the produced records. -/
def stats_by_ext (records : List FileStats) : List (String × Nat × Int × Nat) :=
  records.foldl extUpd []

end CodeScanner

/-! ## Helper lemmas -/

/-- Two pointwise-incompatible predicates count at most the length. -/
theorem countP_disjoint_add_le (p q : α → Bool) (l : List α)
    (h : ∀ x, p x = true → q x = false) :
    l.countP p + l.countP q ≤ l.length := by
  induction l with
  | nil => simp
  | cons a t ih =>
    simp only [List.countP_cons, List.length_cons]
    by_cases hp : p a = true
    · have hq := h a hp
      rw [if_pos hp, if_neg (by simp [hq])]
      omega
    · rw [if_neg hp]
      split <;> omega

/-- A blank (empty after strip) line never starts with a comment marker. -/
theorem blank_not_comment (l : List Char) (h : (pyStrip l).isEmpty = true) :
    startsAny (pyStrip l) CodeScanner.commentMarkers = false := by
  rw [List.isEmpty_iff] at h
  rw [h]
  decide

/-- The classifier stores the relative path it was given. -/
theorem analyze_file_path (rel : List String) (c : Option String) (st : FileStats)
    (h : CodeScanner.analyze_file rel c = some st) : st.path = rel := by
  cases c with
  | none => simp [CodeScanner.analyze_file] at h
  | some s =>
    simp only [CodeScanner.analyze_file, Option.some.injEq] at h
    rw [← h]

/-! ## C3 -/

/-- C3: for every FileRecord produced by the classifier,
`code_lines + blank_lines + comment_lines = total_lines` and each of the
three counts is nonnegative. -/
theorem c3_file_record_invariant (rel : List String) (c : String) (st : FileStats)
    (h : CodeScanner.analyze_file rel (some c) = some st) :
    st.code_lines + st.blank_lines + st.comment_lines = st.lines ∧
      0 ≤ st.code_lines ∧ 0 ≤ (st.blank_lines : Int) ∧ 0 ≤ (st.comment_lines : Int) := by
  simp only [CodeScanner.analyze_file, Option.some.injEq] at h
  subst h
  refine ⟨by push_cast; ring, ?_, by positivity, by positivity⟩
  have hle := countP_disjoint_add_le (fun l => (pyStrip l).isEmpty)
    (fun l => startsAny (pyStrip l) CodeScanner.commentMarkers)
    (pyLines c.data) blank_not_comment
  simp only
  omega

/-- Demo record for the C3 witness. -/
def c3DemoStats : FileStats := ⟨["a.ts"], 3, ".ts", 1, 1, 1⟩

/-- Witness for C3 at a concrete three-line file. -/
theorem c3_file_record_invariant_witness :
    c3DemoStats.code_lines + c3DemoStats.blank_lines + c3DemoStats.comment_lines
        = c3DemoStats.lines ∧
      0 ≤ c3DemoStats.code_lines ∧ 0 ≤ (c3DemoStats.blank_lines : Int) ∧
      0 ≤ (c3DemoStats.comment_lines : Int) :=
  c3_file_record_invariant ["a.ts"] "x\n\n// c\n" c3DemoStats (by decide)

/-! ## C9 -/

/-- C9: a file whose read fails yields no FileRecord and is dropped from
the scan (and hence from every aggregate computed from the records),
while the scan over the remaining candidates is unchanged. -/
theorem c9_read_failure_isolated (root : List String)
    (xs ys : List (List String × Option String)) (rel : List String) :
    CodeScanner.analyze_file rel none = none ∧
    CodeScanner.processFiles root (xs ++ (rel, (none : Option String)) :: ys) =
      CodeScanner.processFiles root (xs ++ ys) ∧
    CodeScanner.stats_by_ext
        (CodeScanner.processFiles root (xs ++ (rel, (none : Option String)) :: ys)) =
      CodeScanner.stats_by_ext (CodeScanner.processFiles root (xs ++ ys)) := by
  have hmid : CodeScanner.processFiles root (xs ++ (rel, (none : Option String)) :: ys) =
      CodeScanner.processFiles root (xs ++ ys) := by
    simp only [CodeScanner.processFiles, List.filterMap_append]
    congr 1
    rw [List.filterMap_cons_none]
    split
    · rfl
    · rfl
  exact ⟨rfl, hmid, by rw [hmid]⟩

/-! ## C5 -/

/-- C5: a file lying under a directory whose name is in the exclusion
set, at any depth below the scan root, never appears in the produced
FileRecords. -/
theorem c5_excluded_dir_never_recorded (root : List String) (t : FSTree)
    (rel : List String) (hex : ∃ c ∈ rel.dropLast, c ∈ Config.EXCLUDE_DIRS) :
    ¬ ∃ st ∈ CodeScanner.scan root t, st.path = rel := by
  rintro ⟨st, hmem, hpath⟩
  obtain ⟨c, hc, hcex⟩ := hex
  unfold CodeScanner.scan CodeScanner.processFiles at hmem
  rw [List.mem_filterMap] at hmem
  obtain ⟨rc, _, hf⟩ := hmem
  by_cases hs : CodeScanner.should_skip (root ++ rc.1) = true
  · rw [if_pos hs] at hf
    exact Option.noConfusion hf
  · rw [if_neg hs] at hf
    apply hs
    cases ha : CodeScanner.analyze_file rc.1 rc.2 with
    | none => simp [ha] at hf
    | some st' =>
      simp only [ha] at hf
      have hrc : rc.1 = rel := by
        by_cases hl : st'.lines > 0
        · rw [if_pos hl] at hf
          have hst : st' = st := Option.some.inj hf
          rw [← hpath, ← hst, analyze_file_path rc.1 rc.2 st' ha]
        · rw [if_neg hl] at hf
          exact absurd hf (by simp)
      rw [hrc]
      have hcrel : c ∈ root ++ rel :=
        List.mem_append_right root (List.dropLast_sublist rel |>.subset hc)
      unfold CodeScanner.should_skip
      rw [Bool.or_eq_true, List.any_eq_true]
      exact Or.inl ⟨c, hcrel, by simpa using hcex⟩

/-- Demo tree for the C5 witness: `a/node_modules/b/x.ts` plus an
unexcluded sibling. -/
def c5DemoTree : FSTree :=
  .node
    [.dir "a" (.node
      [.dir "node_modules" (.node
        [.dir "b" (.node [] [⟨"x.ts", some "let y = 1\n"⟩])] [])]
      [⟨"ok.ts", some "let y = 1\n"⟩])] []

/-- Witness for C5: the nested `x.ts` never shows up. -/
theorem c5_excluded_dir_never_recorded_witness :
    ¬ ∃ st ∈ CodeScanner.scan ["proj"] c5DemoTree,
        st.path = ["a", "node_modules", "b", "x.ts"] :=
  c5_excluded_dir_never_recorded ["proj"] c5DemoTree
    ["a", "node_modules", "b", "x.ts"] (by decide)

/-! ## C4 -/

/-- C4 failing input: the security pattern occurrence sits on a
first-line comment.  `rfind('\n', 0, start)` returns `-1`, the slice
`content[-1:stop]` is empty, so the comment check sees an empty string
and the match is NOT discarded: one Finding is produced although the
line's trimmed form begins with a comment marker.  The same occurrence
on a comment line that is preceded by a newline is discarded. -/
theorem c4_first_line_comment_not_skipped :
    SecurityScanner.scan_file "app.ts" ("// eval(x)\nok").data =
        [⟨"eval", "app.ts", "eval("⟩] ∧
      startsAny (pyStrip ("// eval(x)").data) SecurityScanner.skipMarkers = true ∧
      SecurityScanner.scan_file "app.ts" ("x\n// eval(x)").data = [] := by
  refine ⟨by decide, by decide, by decide⟩

/-! ## C2 -/

/-- C2 failing input: a non-empty file set with no eligible (TS/JS)
file. -/
def c2DemoFile : ScanFile := ⟨"README.md", ".md", 2, some "a\nb\n"⟩

/-- C2: on a non-empty scanned file set containing no eligible file the
eligible code-line sum is `0` and the percent computation divides by
zero (`none` models the uncaught `ZeroDivisionError`); the produced
rate is not `0`.  Only the genuinely empty file set takes the `0`
branch. -/
theorem c2_duplication_rate_zero_division :
    (CodeDuplicationScanner.scan [c2DemoFile]).duplication_percent = none ∧
      (CodeDuplicationScanner.scan ([] : List ScanFile)).duplication_percent = some 0 := by
  refine ⟨by decide, by decide⟩

/-! ## C6 -/

/-- C6: for every function-pattern match, the estimated cyclomatic
complexity of its resolved span is `1` plus the substring counts of the
eight branch keywords; in particular exactly three `if `s and no other
branch keyword yield complexity `4`. -/
theorem c6_complexity_is_one_plus_branch_counts (content : List Char) (m : RMatch)
    (_hm : m ∈ findIter funcPattern content) :
    ((mkRecord content m).complexity =
      1 + countSub (sliceNat content m.ms (find_function_end content m.ms)) ("if ").data
        + countSub (sliceNat content m.ms (find_function_end content m.ms)) ("else ").data
        + countSub (sliceNat content m.ms (find_function_end content m.ms)) ("case ").data
        + countSub (sliceNat content m.ms (find_function_end content m.ms)) ("&&").data
        + countSub (sliceNat content m.ms (find_function_end content m.ms)) ("||").data
        + countSub (sliceNat content m.ms (find_function_end content m.ms)) ("for ").data
        + countSub (sliceNat content m.ms (find_function_end content m.ms)) ("while ").data
        + countSub (sliceNat content m.ms (find_function_end content m.ms)) ("catch ").data) ∧
    (countSub (sliceNat content m.ms (find_function_end content m.ms)) ("if ").data = 3 →
      countSub (sliceNat content m.ms (find_function_end content m.ms)) ("else ").data = 0 →
      countSub (sliceNat content m.ms (find_function_end content m.ms)) ("case ").data = 0 →
      countSub (sliceNat content m.ms (find_function_end content m.ms)) ("&&").data = 0 →
      countSub (sliceNat content m.ms (find_function_end content m.ms)) ("||").data = 0 →
      countSub (sliceNat content m.ms (find_function_end content m.ms)) ("for ").data = 0 →
      countSub (sliceNat content m.ms (find_function_end content m.ms)) ("while ").data = 0 →
      countSub (sliceNat content m.ms (find_function_end content m.ms)) ("catch ").data = 0 →
      (mkRecord content m).complexity = 4) := by
  constructor
  · simp [mkRecord, complexityOfSpan]
  · intro h1 h2 h3 h4 h5 h6 h7 h8
    simp [mkRecord, complexityOfSpan, h1, h2, h3, h4, h5, h6, h7, h8]

/-- Demo content for the C6 witness: one function whose span holds
exactly three `if`s and no other branch keyword. -/
def c6DemoContent : List Char :=
  ("function foo() \x7b if (a) x; if (b) y; if (c) z; \x7d").data

/-- The detector's (only) match on the demo content. -/
def c6DemoMatch : RMatch := ⟨0, 12, [(1, 9, 12)]⟩

/-- Witness for C6: the demo function's estimated complexity is `4`. -/
theorem c6_complexity_witness : (mkRecord c6DemoContent c6DemoMatch).complexity = 4 :=
  (c6_complexity_is_one_plus_branch_counts c6DemoContent c6DemoMatch (by decide)).2
    (by decide) (by decide) (by decide) (by decide) (by decide) (by decide)
    (by decide) (by decide)

/-! ## C8 -/

/-- Rounding an integer value returns it. -/
theorem pyRound1_int (n : Int) : pyRound1 (n : Rat) = n := by
  have h : ((n : Rat) * 10) = ((n * 10 : Int) : Rat) := by push_cast; ring
  simp only [pyRound1, h, Int.floor_intCast]
  rw [if_pos (by norm_num)]
  push_cast
  ring

/-- Rounding zero gives zero. -/
theorem pyRound1_zero : pyRound1 0 = 0 := by
  have := pyRound1_int 0
  simpa using this

/-- C8: documentation coverage is the documented/total ratio times 100,
and exactly `0` (an ordinary value, produced by the guard, not an
error) when no function-like declaration was counted. -/
theorem c8_doc_coverage (files : List ScanFile) :
    ((DocumentationScanner.scan files).total_functions = 0 →
      (DocumentationScanner.scan files).coverage_percent = 0) ∧
    (0 < (DocumentationScanner.scan files).total_functions →
      (DocumentationScanner.scan files).coverage_percent =
        pyRound1 (((DocumentationScanner.scan files).documented_functions : Rat) /
          ((DocumentationScanner.scan files).total_functions : Rat) * 100)) := by
  constructor
  · intro h
    simp only [DocumentationScanner.scan] at h ⊢
    rw [if_neg (by omega)]
    exact pyRound1_zero
  · intro h
    simp only [DocumentationScanner.scan] at h ⊢
    rw [if_pos h]

/-- Demo corpus for the C8 witness: one eligible file with no
function-like declaration. -/
def c8DemoFiles : List ScanFile := [⟨"a.ts", ".ts", 0, some "x"⟩]

/-- Witness for C8 at a corpus with zero declarations. -/
theorem c8_doc_coverage_witness :
    (DocumentationScanner.scan c8DemoFiles).coverage_percent = 0 :=
  (c8_doc_coverage c8DemoFiles).1 (by decide)

/-! ## C10 -/

/-- Demo corpus for C10: two JSDoc blocks but a single counted
function-like declaration. -/
def c10DemoFiles : List ScanFile :=
  [⟨"a.ts", ".ts", 0, some "/** a */\n/** b */\nfunction foo() \x7b\x7d"⟩]

/-- C10: doc-comment blocks are counted independently of function
declarations, so a file with more JSDoc blocks than matched
declarations drives the coverage above 100 percent. -/
theorem c10_coverage_can_exceed_100 :
    (DocumentationScanner.scan c10DemoFiles).total_functions = 1 ∧
      (DocumentationScanner.scan c10DemoFiles).documented_functions = 2 ∧
      (DocumentationScanner.scan c10DemoFiles).coverage_percent = 200 ∧
      (100 : Rat) < (DocumentationScanner.scan c10DemoFiles).coverage_percent := by
  have ht : DocumentationScanner.totalFunctions c10DemoFiles = 1 := by decide
  have hd : DocumentationScanner.documentedFunctions c10DemoFiles = 2 := by decide
  have hc : (DocumentationScanner.scan c10DemoFiles).coverage_percent = 200 := by
    simp only [DocumentationScanner.scan, ht, hd]
    rw [if_pos (by norm_num)]
    rw [show ((2 : Nat) : Rat) / ((1 : Nat) : Rat) * 100 = ((200 : Int) : Rat) by norm_num]
    rw [pyRound1_int]
    norm_num
  refine ⟨ht, hd, hc, by rw [hc]; norm_num⟩

/-! ## C1 -/

/-- Length of `flatMap` as a sum of mapped lengths. -/
theorem flatMap_length_sum (l : List α) (f : α → List β) :
    (l.flatMap f).length = (l.map (fun a => (f a).length)).sum := by
  induction l with
  | nil => rfl
  | cons a t ih => simp [List.flatMap_cons, ih]

/-- The length of a guarded `filterMap` is a `countP`. -/
theorem filterMapIf_length (p : α → Prop) [DecidablePred p] (g : α → β) (l : List α) :
    (l.filterMap (fun x => if p x then some (g x) else none)).length =
      l.countP (fun x => decide (p x)) := by
  induction l with
  | nil => rfl
  | cons a t ih => by_cases h : p a <;> simp [h, ih]

/-- Inserting preserves length. -/
theorem insDesc_length (x : FuncEntry) (l : List FuncEntry) :
    (ComplexityScanner.insDesc x l).length = l.length + 1 := by
  induction l with
  | nil => rfl
  | cons y ys ih =>
    unfold ComplexityScanner.insDesc
    split
    · simp [ih]
    · simp

/-- The stable descending sort preserves length. -/
theorem sortDesc_length (l : List FuncEntry) :
    (ComplexityScanner.sortDesc l).length = l.length := by
  suffices h : ∀ (l acc : List FuncEntry),
      (l.foldl (fun a x => ComplexityScanner.insDesc x a) acc).length =
        acc.length + l.length by
    simpa using h l []
  intro l
  induction l with
  | nil => simp
  | cons a t ih =>
    intro acc
    simp only [List.foldl_cons, ih, insDesc_length, List.length_cons]
    omega

/-- Modelled from the spec ("Counts are exact; only the *displayed*
offender lists are truncated"): the exact number of detected functions
in one file's content whose estimated complexity exceeds 10, with no
truncation. -/
def specComplexOffenders (c : List Char) : Nat :=
  (findIter funcPattern c).countP (fun m => decide ((mkRecord c m).complexity > 10))

/-- Modelled from the spec: the exact count of long functions in one
file's content. -/
def specLongOffenders (c : List Char) : Nat :=
  (findIter funcPattern c).countP
    (fun m => decide ((mkRecord c m).flines > Config.MAX_FUNCTION_LINES))

/-- Modelled from the spec: the exact count of over-parameterized
functions in one file's content. -/
def specParamOffenders (c : List Char) : Nat :=
  (findIter funcPattern c).countP
    (fun m => decide ((mkRecord c m).params > Config.MAX_FUNCTION_PARAMS))

/-- Modelled from the spec: the exact corpus-wide number of detected
complex functions. -/
def specExactComplexTotal (files : List ScanFile) : Nat :=
  ((eligibleContents files).map specComplexOffenders).sum

/-- Per-file complex list length: capped at 5. -/
theorem afc_complex_length (c : List Char) :
    (ComplexityScanner.analyze_function_complexity c).complex_functions.length =
      min 5 (specComplexOffenders c) := by
  simp only [ComplexityScanner.analyze_function_complexity, specComplexOffenders]
  rw [List.length_take, filterMapIf_length, List.countP_map]
  rfl

/-- Per-file long list length: capped at 5. -/
theorem afc_long_length (c : List Char) :
    (ComplexityScanner.analyze_function_complexity c).long_functions.length =
      min 5 (specLongOffenders c) := by
  simp only [ComplexityScanner.analyze_function_complexity, specLongOffenders]
  rw [List.length_take, filterMapIf_length, List.countP_map]
  rfl

/-- Per-file params list length: capped at 5. -/
theorem afc_params_length (c : List Char) :
    (ComplexityScanner.analyze_function_complexity c).many_params.length =
      min 5 (specParamOffenders c) := by
  simp only [ComplexityScanner.analyze_function_complexity, specParamOffenders]
  rw [List.length_take, filterMapIf_length, List.countP_map]
  rfl

/-- C1 (amended): each per-category total equals the length of the
truncated offender list — per-file lists are capped at 5 before
aggregation, the aggregated lists at 10 — so each total is
`min 10 (sum over eligible files of min 5 (exact per-file count))`
and never exceeds 10. -/
theorem c1_totals_are_truncated (files : List ScanFile) :
    ((ComplexityScanner.scan files).total_complex
        = min 10 (((eligibleContents files).map
            (fun c => min 5 (specComplexOffenders c))).sum) ∧
      (ComplexityScanner.scan files).total_long
        = min 10 (((eligibleContents files).map
            (fun c => min 5 (specLongOffenders c))).sum) ∧
      (ComplexityScanner.scan files).total_params
        = min 10 (((eligibleContents files).map
            (fun c => min 5 (specParamOffenders c))).sum)) ∧
    (ComplexityScanner.scan files).total_complex ≤ 10 ∧
    (ComplexityScanner.scan files).total_long ≤ 10 ∧
    (ComplexityScanner.scan files).total_params ≤ 10 := by
  have h1 : (ComplexityScanner.scan files).total_complex
      = min 10 (((eligibleContents files).map
          (fun c => min 5 (specComplexOffenders c))).sum) := by
    simp only [ComplexityScanner.scan]
    rw [List.length_take, sortDesc_length, flatMap_length_sum, List.map_map]
    simp only [Function.comp_def, afc_complex_length]
  have h2 : (ComplexityScanner.scan files).total_long
      = min 10 (((eligibleContents files).map
          (fun c => min 5 (specLongOffenders c))).sum) := by
    simp only [ComplexityScanner.scan]
    rw [List.length_take, sortDesc_length, flatMap_length_sum, List.map_map]
    simp only [Function.comp_def, afc_long_length]
  have h3 : (ComplexityScanner.scan files).total_params
      = min 10 (((eligibleContents files).map
          (fun c => min 5 (specParamOffenders c))).sum) := by
    simp only [ComplexityScanner.scan]
    rw [List.length_take, sortDesc_length, flatMap_length_sum, List.map_map]
    simp only [Function.comp_def, afc_params_length]
  refine ⟨⟨h1, h2, h3⟩, ?_, ?_, ?_⟩
  · rw [h1]; exact Nat.min_le_left _ _
  · rw [h2]; exact Nat.min_le_left _ _
  · rw [h3]; exact Nat.min_le_left _ _

/-- C1 counterexample input: one eligible file holding six functions of
estimated complexity 11. -/
def c1DemoFile : ScanFile :=
  ⟨"big.ts", ".ts", 6, some
    "f()\x7b&&&&&&&&&&&&&&&&&&&&\x7d\ng()\x7b&&&&&&&&&&&&&&&&&&&&\x7d\nh()\x7b&&&&&&&&&&&&&&&&&&&&\x7d\ni()\x7b&&&&&&&&&&&&&&&&&&&&\x7d\nj()\x7b&&&&&&&&&&&&&&&&&&&&\x7d\nk()\x7b&&&&&&&&&&&&&&&&&&&&\x7d"⟩

/-- C1 counterexample: the scan detects six complex functions but
reports `total_complex = 5` (the per-file list is truncated to 5 before
the total is taken), so the aggregated total is not the exact count
over all detected functions. -/
theorem c1_totals_not_exact :
    (ComplexityScanner.scan [c1DemoFile]).total_complex = 5 ∧
      specExactComplexTotal [c1DemoFile] = 6 := by
  refine ⟨by decide, by decide⟩

/-! ## C7 -/

namespace CodeDuplicationScanner

/-- Lookup after one table append. -/
theorem tblGet_tblAdd (t : List (List Char × List DupOcc)) (k' k : List Char)
    (v : DupOcc) :
    tblGet (tblAdd t k' v) k = if k' = k then tblGet t k ++ [v] else tblGet t k := by
  induction t with
  | nil => by_cases h : k' = k <;> simp [tblAdd, tblGet, h]
  | cons e rest ih =>
    obtain ⟨k'', vs⟩ := e
    by_cases h1 : k'' = k'
    · subst h1
      by_cases h2 : k'' = k <;> simp [tblAdd, tblGet, h2]
    · by_cases h2 : k'' = k
      · subst h2
        have h3 : k' ≠ k'' := fun hh => h1 hh.symm
        simp [tblAdd, tblGet, h1, h3, ih]
      · simp [tblAdd, tblGet, h1, h2, ih]

/-- Lookup after folding a pair list into the table. -/
theorem tblGet_foldl (ps : List (List Char × DupOcc))
    (t : List (List Char × List DupOcc)) (k : List Char) :
    tblGet (ps.foldl (fun t' p => tblAdd t' p.1 p.2) t) k =
      tblGet t k ++ ps.filterMap (fun p => if p.1 = k then some p.2 else none) := by
  induction ps generalizing t with
  | nil => simp
  | cons p ps ih =>
    simp only [List.foldl_cons, ih, tblGet_tblAdd, List.filterMap_cons]
    by_cases h : p.1 = k <;> simp [h]

/-- Every pair the per-file loop keeps has a normalized line of length
at least 30. -/
theorem keptAux_key_long (path : String) :
    ∀ (ls : List (List Char)) (i : Nat) (p : List Char × DupOcc),
      p ∈ keptAux path ls i → 30 ≤ p.1.length := by
  intro ls
  induction ls with
  | nil => intro i p hp; simp [keptAux] at hp
  | cons l rest ih =>
    intro i p hp
    simp only [keptAux] at hp
    split at hp
    · exact ih (i + 1) p hp
    · rename_i hcond
      rcases List.mem_cons.1 hp with h | h
      · subst h
        have h30 : ¬ (pyStrip l).length < 30 := by
          intro hlt
          exact hcond (by simp [hlt])
        exact Nat.not_lt.1 h30
      · exact ih (i + 1) p h

/-- The key-occurrence count the per-file loop contributes equals the
number of lines normalizing to the key, for a key that itself passes
the filters. -/
theorem keptAux_count (path : String) (key : List Char)
    (hne : key ≠ []) (hmark : startsAny key dupSkipMarkers = false)
    (hlen : ¬ key.length < 30) :
    ∀ (ls : List (List Char)) (i : Nat),
      ((keptAux path ls i).filterMap
          (fun p => if p.1 = key then some p.2 else none)).length =
        ls.countP (fun l => decide (pyStrip l = key)) := by
  intro ls
  induction ls with
  | nil => intro i; rfl
  | cons l rest ih =>
    intro i
    simp only [keptAux, List.countP_cons]
    have hcondkey :
        ¬ ((key.isEmpty || startsAny key dupSkipMarkers
            || decide (key.length < 30)) = true) := by
      intro hcon
      simp only [Bool.or_eq_true] at hcon
      rcases hcon with (h | h) | h
      · exact hne (List.isEmpty_iff.mp h)
      · rw [hmark] at h; cases h
      · exact hlen (of_decide_eq_true h)
    by_cases hk : pyStrip l = key
    · rw [hk]
      rw [if_neg hcondkey]
      simp [List.filterMap_cons, ih, hk]
    · by_cases hskip : ((pyStrip l).isEmpty || startsAny (pyStrip l) dupSkipMarkers
          || decide ((pyStrip l).length < 30)) = true
      · rw [if_pos hskip]
        simp [ih, hk]
      · rw [if_neg hskip]
        simp [List.filterMap_cons, hk, ih]

/-- The keys after one append: unchanged when present, appended when
new. -/
theorem tblAdd_keys (t : List (List Char × List DupOcc)) (k : List Char) (v : DupOcc) :
    (tblAdd t k v).map Prod.fst =
      if k ∈ t.map Prod.fst then t.map Prod.fst else t.map Prod.fst ++ [k] := by
  induction t with
  | nil => simp [tblAdd]
  | cons e rest ih =>
    obtain ⟨k', vs⟩ := e
    by_cases h : k' = k
    · subst h
      simp [tblAdd]
    · have h2 : k ≠ k' := fun hh => h hh.symm
      by_cases hm : k ∈ rest.map Prod.fst <;>
        simp [tblAdd, h, h2, hm, ih]

/-- Appending keeps the keys duplicate-free. -/
theorem tblAdd_keys_nodup (t : List (List Char × List DupOcc)) (k : List Char)
    (v : DupOcc) (h : (t.map Prod.fst).Nodup) :
    ((tblAdd t k v).map Prod.fst).Nodup := by
  rw [tblAdd_keys]
  split
  · exact h
  · rename_i hnot
    exact h.append (List.nodup_singleton k) (fun a ha hb => by
      rw [List.mem_singleton] at hb
      exact hnot (hb ▸ ha))

/-- Folding pairs keeps the keys duplicate-free. -/
theorem foldl_keys_nodup (ps : List (List Char × DupOcc))
    (t : List (List Char × List DupOcc)) (h : (t.map Prod.fst).Nodup) :
    (((ps.foldl (fun t' p => tblAdd t' p.1 p.2) t)).map Prod.fst).Nodup := by
  induction ps generalizing t with
  | nil => exact h
  | cons p ps ih => exact ih _ (tblAdd_keys_nodup _ _ _ h)

/-- The corpus table has duplicate-free keys. -/
theorem table_keys_nodup (files : List ScanFile) :
    ((table files).map Prod.fst).Nodup := by
  unfold table
  generalize files.filter (fun f => eligibleExt f.extension) = fl
  suffices h : ∀ (fl : List ScanFile) (t : List (List Char × List DupOcc)),
      (t.map Prod.fst).Nodup →
      ((fl.foldl (fun t f => (keptPairs f).foldl (fun t' p => tblAdd t' p.1 p.2) t) t).map
        Prod.fst).Nodup by
    exact h fl [] (by simp)
  intro fl
  induction fl with
  | nil => intro t ht; exact ht
  | cons f rest ih =>
    intro t ht
    exact ih _ (foldl_keys_nodup _ _ ht)

/-- With duplicate-free keys, at most one entry matches a key. -/
theorem nodup_countP_le_one (t : List (List Char × List DupOcc)) (k : List Char)
    (h : (t.map Prod.fst).Nodup) :
    t.countP (fun e => decide (e.1 = k)) ≤ 1 := by
  induction t with
  | nil => simp
  | cons e rest ih =>
    simp only [List.map_cons, List.nodup_cons] at h
    simp only [List.countP_cons]
    by_cases hk : e.1 = k
    · have hz : rest.countP (fun x => decide (x.1 = k)) = 0 := by
        rw [List.countP_eq_zero]
        intro a ha
        simp only [decide_eq_true_eq]
        intro hak
        exact h.1 (by
          rw [hk, ← hak]
          exact List.mem_map_of_mem Prod.fst ha)
      simp [hz, hk]
    · simpa [hk] using ih h.2

/-- A non-empty lookup means some entry matches the key. -/
theorem tblGet_ne_nil_count_pos (t : List (List Char × List DupOcc)) (k : List Char)
    (h : tblGet t k ≠ []) :
    0 < t.countP (fun e => decide (e.1 = k)) := by
  induction t with
  | nil => simp [tblGet] at h
  | cons e rest ih =>
    obtain ⟨k', vs⟩ := e
    simp only [tblGet] at h
    simp only [List.countP_cons]
    by_cases hk : k' = k
    · simp [hk]
    · rw [if_neg hk] at h
      exact Nat.lt_of_lt_of_le (ih h) (Nat.le_add_right _ _)

end CodeDuplicationScanner

/-- The lines a file feeds into the duplication loop (empty when the
read fails). -/
def fileLines (f : ScanFile) : List (List Char) :=
  match f.content with
  | none => []
  | some c => pyLines c.data

namespace CodeDuplicationScanner

/-- Unfolding `keptPairs` through `fileLines`. -/
theorem keptPairs_eq (f : ScanFile) :
    keptPairs f = keptAux f.path (fileLines f) 0 := by
  cases h : f.content <;> simp [keptPairs, fileLines, h, keptAux]

/-- Looking up the corpus table at a key shorter than the threshold
yields nothing: every stored key has length at least 30. -/
theorem table_short_key_absent (files : List ScanFile) (k : List Char)
    (hk : k.length < 30) :
    tblGet (table files) k = [] := by
  unfold table
  generalize files.filter (fun f => eligibleExt f.extension) = fl
  suffices h : ∀ (fl : List ScanFile) (t : List (List Char × List DupOcc)),
      tblGet t k = [] →
      tblGet (fl.foldl
        (fun t f => (keptPairs f).foldl (fun t' p => tblAdd t' p.1 p.2) t) t) k = [] by
    exact h fl [] rfl
  intro fl
  induction fl with
  | nil => intro t ht; exact ht
  | cons f rest ih =>
    intro t ht
    simp only [List.foldl_cons]
    apply ih
    rw [tblGet_foldl, ht, List.nil_append, List.filterMap_eq_nil_iff]
    intro p hp
    rw [if_neg]
    intro hpk
    have h30 : 30 ≤ p.1.length := by
      rw [keptPairs_eq] at hp
      exact keptAux_key_long f.path (fileLines f) 0 p hp
    rw [hpk] at h30
    omega

end CodeDuplicationScanner

/-- C7: in a two-file eligible corpus where each file holds exactly one
line normalizing to a given 40-character non-comment code line, the
duplication detector builds exactly one group for that line, with 2
occurrences, contributing `2 - 1 = 1` duplicate; and any line shorter
than the 30-character threshold never enters the table at all. -/
theorem c7_identical_long_line_duplicate_group (f1 f2 : ScanFile) (key : List Char)
    (he1 : eligibleExt f1.extension = true) (he2 : eligibleExt f2.extension = true)
    (hlen : key.length = 40)
    (hmark : startsAny key CodeDuplicationScanner.dupSkipMarkers = false)
    (hc1 : (fileLines f1).countP (fun l => decide (pyStrip l = key)) = 1)
    (hc2 : (fileLines f2).countP (fun l => decide (pyStrip l = key)) = 1) :
    (CodeDuplicationScanner.tblGet (CodeDuplicationScanner.table [f1, f2]) key).length
        = 2 ∧
      CodeDuplicationScanner.contribution
        (CodeDuplicationScanner.tblGet (CodeDuplicationScanner.table [f1, f2]) key) = 1 ∧
      (CodeDuplicationScanner.table [f1, f2]).countP (fun e => decide (e.1 = key)) = 1 ∧
      (∀ s : List Char, s.length < 30 →
        CodeDuplicationScanner.tblGet (CodeDuplicationScanner.table [f1, f2]) s = []) := by
  have hne : key ≠ [] := by
    intro h
    rw [h] at hlen
    simp at hlen
  have h30 : ¬ key.length < 30 := by omega
  have htbl : CodeDuplicationScanner.table [f1, f2]
      = (CodeDuplicationScanner.keptPairs f2).foldl
          (fun t' p => CodeDuplicationScanner.tblAdd t' p.1 p.2)
          ((CodeDuplicationScanner.keptPairs f1).foldl
            (fun t' p => CodeDuplicationScanner.tblAdd t' p.1 p.2) []) := by
    unfold CodeDuplicationScanner.table
    simp [List.filter_cons, he1, he2]
  have hget : CodeDuplicationScanner.tblGet (CodeDuplicationScanner.table [f1, f2]) key
      = (CodeDuplicationScanner.keptPairs f1).filterMap
          (fun p => if p.1 = key then some p.2 else none)
        ++ (CodeDuplicationScanner.keptPairs f2).filterMap
          (fun p => if p.1 = key then some p.2 else none) := by
    rw [htbl, CodeDuplicationScanner.tblGet_foldl, CodeDuplicationScanner.tblGet_foldl]
    simp [CodeDuplicationScanner.tblGet]
  have hlen2 :
      (CodeDuplicationScanner.tblGet (CodeDuplicationScanner.table [f1, f2]) key).length
        = 2 := by
    rw [hget, List.length_append]
    rw [CodeDuplicationScanner.keptPairs_eq, CodeDuplicationScanner.keptPairs_eq]
    rw [CodeDuplicationScanner.keptAux_count f1.path key hne hmark h30 (fileLines f1) 0,
      CodeDuplicationScanner.keptAux_count f2.path key hne hmark h30 (fileLines f2) 0]
    rw [hc1, hc2]
  refine ⟨hlen2, ?_, ?_, fun s hs =>
    CodeDuplicationScanner.table_short_key_absent [f1, f2] s hs⟩
  · simp [CodeDuplicationScanner.contribution, hlen2]
  · have hle := CodeDuplicationScanner.nodup_countP_le_one
      (CodeDuplicationScanner.table [f1, f2]) key
      (CodeDuplicationScanner.table_keys_nodup [f1, f2])
    have hpos := CodeDuplicationScanner.tblGet_ne_nil_count_pos
      (CodeDuplicationScanner.table [f1, f2]) key (by
        intro hnil
        rw [hnil] at hlen2
        simp at hlen2)
    omega

/-- C7 witness corpus: two eligible files sharing a 40-character code
line and a 10-character code line. -/
def c7File1 : ScanFile :=
  ⟨"a.ts", ".ts", 2, some "const result = computeAggregateValue(x);\nlet z = 1;"⟩

/-- Second witness file. -/
def c7File2 : ScanFile :=
  ⟨"b.ts", ".ts", 2, some "const result = computeAggregateValue(x);\nlet z = 1;"⟩

/-- The shared 40-character line. -/
def c7Key : List Char := ("const result = computeAggregateValue(x);").data

/-- Witness for C7 on the concrete corpus: one group of 2 occurrences
contributing 1, and the shared 10-character line absent from the
table. -/
theorem c7_identical_long_line_duplicate_group_witness :
    (CodeDuplicationScanner.tblGet (CodeDuplicationScanner.table [c7File1, c7File2])
        c7Key).length = 2 ∧
      CodeDuplicationScanner.contribution
        (CodeDuplicationScanner.tblGet (CodeDuplicationScanner.table [c7File1, c7File2])
          c7Key) = 1 ∧
      CodeDuplicationScanner.tblGet (CodeDuplicationScanner.table [c7File1, c7File2])
        (("let z = 1;").data) = [] :=
  have h := c7_identical_long_line_duplicate_group c7File1 c7File2 c7Key
    (by decide) (by decide) (by decide) (by decide) (by decide) (by decide)
  ⟨h.1, h.2.1, h.2.2.2 (("let z = 1;").data) (by decide)⟩
